import Mathlib

/-!
Shallow embedding of the `temporal_patterns` repository
(`src/periodic_patterns_v2.py` and `src/kernel_density.py`).

Modelling conventions:
* Python floats are modelled by exact rationals `ℚ` where the program only
  performs field operations and floor/mod on them (all calendar phase
  arithmetic), and by real numbers `ℝ` in the density-estimation layer
  (which involves fractional powers).  The special float values `math.inf`
  and `-math.inf`, used as initial extrema of `ModuloPattern`, are modelled
  by the extended type `XR` below, whose comparison/arithmetic operations
  mirror IEEE-754 semantics on the combinations the program can reach.
* The scikit-learn `KernelDensity` estimator is an external library
  (the spec lists density estimation as an external collaborator); it is
  modelled by an abstract scorer parameter `KdeModel`: given the kernel
  name, the bandwidth and the fitted data, it yields the estimated density
  at a point.  Everything the repository itself does around it
  (`plot_kde`, `plot_kde_modulo`, caching, normalisation) is translated.
* Python exceptions are modelled by `Option`/`Except` results; where the
  program mutates state before a statement that can raise, the model
  returns the partially mutated state together with the error, mirroring
  Python's sequential execution.
* Python dicts are modelled by association lists with insert-or-update
  semantics (first occurrence wins on lookup; keys keep their first
  position), matching dict iteration order.
-/

/- The Batteries library marks the `Rat` field operations irreducible, which
would keep `decide` from evaluating the model on concrete inputs; restore
the ordinary reducibility of those operations for this file. -/
set_option allowUnsafeReducibility true
attribute [local semireducible] Rat.add Rat.sub Rat.mul Rat.inv Rat.ofScientific

/-- Errors corresponding to the Python exception classes raised by the code. -/
inductive PErr where
  | typeError
  | valueError
  | overflowError
  deriving DecidableEq, Repr

/-- Extended rationals modelling the Python float values reachable in
`ModuloPattern.min` / `ModuloPattern.max`: `math.inf`, `-math.inf`, finite
values, and `nan` (kept for totality of the IEEE-style operations). -/
inductive XR where
  | ninf
  | fin (q : ℚ)
  | inf
  | nan
  deriving DecidableEq, Repr

/-- IEEE-style strict less-than on `XR`; any comparison with `nan` is false. -/
def XR.lt : XR → XR → Bool
  | .nan, _ => false
  | _, .nan => false
  | .ninf, .ninf => false
  | .ninf, _ => true
  | _, .ninf => false
  | .inf, _ => false
  | .fin _, .inf => true
  | .fin a, .fin b => a < b

/-- IEEE-style less-or-equal on `XR`; any comparison with `nan` is false. -/
def XR.le : XR → XR → Bool
  | .nan, _ => false
  | _, .nan => false
  | .ninf, _ => true
  | _, .ninf => false
  | _, .inf => true
  | .inf, .fin _ => false
  | .fin a, .fin b => a ≤ b

/-- Python's binary `min(a, b)`: returns `b` if `b < a` else `a`. -/
def pyMin (a b : XR) : XR := if XR.lt b a then b else a

/-- Python's binary `max(a, b)`: returns `b` if `a < b` else `a`. -/
def pyMax (a b : XR) : XR := if XR.lt a b then b else a

/-- Subtraction on `XR`, following IEEE-754 on the mixed cases
(`-inf - inf = -inf`, `inf - inf = nan`, ...). -/
def XR.sub : XR → XR → XR
  | .nan, _ => .nan
  | _, .nan => .nan
  | .fin a, .fin b => .fin (a - b)
  | .inf, .inf => .nan
  | .inf, _ => .inf
  | .ninf, .ninf => .nan
  | .ninf, _ => .ninf
  | .fin _, .inf => .ninf
  | .fin _, .ninf => .inf

/-- Division of an `XR` by a (nonzero) rational, following IEEE-754 for the
infinite cases (the sign of the result flips with the sign of the divisor). -/
def XR.divQ : XR → ℚ → XR
  | .nan, _ => .nan
  | .fin a, m => .fin (a / m)
  | .inf, m => if 0 < m then .inf else if m < 0 then .ninf else .nan
  | .ninf, m => if 0 < m then .ninf else if m < 0 then .inf else .nan

/-- Items attached to observations; the repository always passes `None`. -/
def Item : Type := Option Unit

instance : DecidableEq Item := by unfold Item; infer_instance

/-- A Python value passed to `ModuloPattern.add`: either a number (modelled
exactly by a rational) or a non-numeric value such as a string, which makes
the comparison inside `min(value, self.min)` raise `TypeError`. -/
inductive PyValue where
  | num (q : ℚ)
  | str (s : String)
  deriving DecidableEq, Repr

/-- One KDE curve: the sampled x values and the corresponding densities. -/
def Curve : Type := List ℝ × List ℝ

/-- The state of `ModuloPattern` (periodic_patterns_v2.py, lines 64-125).
The display-only fields `x_axis_labels` / `x_axis_name` are omitted: they
are consumed by plotting alone and touched by no modelled operation. -/
structure ModuloPattern where
  name : String
  vector_dimension : ℕ
  modulo : ℚ
  min_periods : ℤ
  min_items : ℤ
  /-- running minimum of raw added values; starts at `math.inf` -/
  min : XR
  /-- running maximum of raw added values; starts at `-math.inf` -/
  max : XR
  /-- every `value mod modulo`, in insertion order -/
  remainders : List ℚ
  /-- Model of `_quotients`: maps each quotient to its item list, insertion-ordered -/
  quotients : List (ℚ × List Item)
  /-- Model of `_remainders`: maps each remainder to its item list, insertion-ordered -/
  remainderIndex : List (ℚ × List Item)
  /-- Model of `__kde`: cached curves keyed by sample count -/
  kdeCache : List (ℕ × Curve)
  /-- Model of `__vector`: cached embedding vector -/
  vecCache : List ℝ

/-- Association-list lookup with decidable keys (Python `d[k]` / `k in d`). -/
def alookup {κ α : Type} [DecidableEq κ] (k : κ) : List (κ × α) → Option α
  | [] => none
  | (k', v) :: rest => if k' = k then some v else alookup k rest

/-- Python `d.setdefault(k, []).append(item)`: append `item` to the list at
key `k`, creating the entry at the end if the key is absent. -/
def setdefaultAppend (d : List (ℚ × List Item)) (k : ℚ) (it : Item) :
    List (ℚ × List Item) :=
  match d with
  | [] => [(k, [it])]
  | (k', v) :: rest =>
    if k' = k then (k', v ++ [it]) :: rest
    else (k', v) :: setdefaultAppend rest k it

/-- Model of `ModuloPattern.add(value, item)` (lines 113-125), with Python's
sequential-mutation semantics: the cached KDE curves and the cached vector
are cleared first; for a non-numeric `value` the subsequent
`min(value, self.min)` raises `TypeError`, so the returned state has the
caches cleared but everything else untouched.  For numeric values the
extrema are updated, `divmod(value, modulo)` is taken and the remainder and
the two indices are extended. -/
def ModuloPattern.addPy (p : ModuloPattern) (v : PyValue) (it : Item) :
    ModuloPattern × Option PErr :=
  let p1 := { p with kdeCache := [], vecCache := [] }
  match v with
  | .str _ => (p1, some .typeError)
  | .num q =>
    let p2 := { p1 with min := pyMin (.fin q) p1.min, max := pyMax (.fin q) p1.max }
    let quotient : ℚ := ⌊q / p.modulo⌋
    let remainder : ℚ := q - p.modulo * ⌊q / p.modulo⌋
    ({ p2 with
        remainders := p2.remainders ++ [remainder],
        quotients := setdefaultAppend p2.quotients quotient it,
        remainderIndex := setdefaultAppend p2.remainderIndex remainder it },
     none)

/-- Model of `ModuloPattern.add` specialised to the numeric values the aggregator
feeds it (this call never raises). -/
def ModuloPattern.add (p : ModuloPattern) (v : ℚ) (it : Item) : ModuloPattern :=
  (p.addPy (.num v) it).1

/-- Model of `n_periods` (lines 141-143): `max(0.0, (self.max - self.min) / self.modulo)`,
with Python's `max` comparison semantics on extended values. -/
def ModuloPattern.n_periods (p : ModuloPattern) : XR :=
  pyMax (.fin 0) ((p.max.sub p.min).divQ p.modulo)

/-- Model of `is_valid` (lines 145-147). -/
def ModuloPattern.is_valid (p : ModuloPattern) : Bool :=
  XR.le (.fin (p.min_periods : ℚ)) p.n_periods
    && p.min_items ≤ (p.remainders.length : ℤ)

/-- Stable insertion used to model Python `sorted` on rationals. -/
def insertQ (x : ℚ) : List ℚ → List ℚ
  | [] => [x]
  | y :: ys => if y ≤ x then y :: insertQ x ys else x :: y :: ys

/-- Python `sorted` on a list of rationals (ascending). -/
def sortQ (l : List ℚ) : List ℚ := l.foldr insertQ []

/-- The loop body of `ModuloPattern.consecutive` (lines 149-161), translated
statement by statement.  `buffer` is kept reversed (head = Python
`buffer[-1]`); `out` accumulates completed runs in order.  As in the source,
a quotient that breaks a run is dropped rather than starting the next
buffer, and the final buffer is never flushed when the loop ends. -/
def consecutiveLoop (min_length : ℕ) :
    List ℚ → List (List ℚ) → List ℚ → List (List ℚ)
  | [], out, _buffer => out
  | q :: rest, out, buffer =>
    match buffer with
    | [] => consecutiveLoop min_length rest out [q]
    | b :: bs =>
      if q - 1 = b then consecutiveLoop min_length rest out (q :: b :: bs)
      else if q ≠ b then
        (if min_length ≤ (b :: bs).length
          then consecutiveLoop min_length rest (out ++ [(b :: bs).reverse]) []
          else consecutiveLoop min_length rest out [])
      else consecutiveLoop min_length rest out (b :: bs)

/-- Model of `ModuloPattern.consecutive(min_length)` (lines 149-161): iterates over
`sorted(self._quotients.keys())` with the loop above. -/
def ModuloPattern.consecutive (p : ModuloPattern) (min_length : ℕ) :
    List (List ℚ) :=
  consecutiveLoop min_length (sortQ (p.quotients.map Prod.fst)) [] []

/-- A Python number as passed to the `ModuloPattern` constructor: either an
`int` or a `float` (`isinstance(x, int)` distinguishes the two). -/
inductive PyNum where
  | pint (z : ℤ)
  | pfloat (q : ℚ)
  deriving DecidableEq, Repr

/-- Python `x == 0` on a number. -/
def PyNum.isZero : PyNum → Bool
  | .pint z => z = 0
  | .pfloat q => q = 0

/-- Python `isinstance(x, int) and x > 0`. -/
def PyNum.isPosInt : PyNum → Bool
  | .pint z => 0 < z
  | .pfloat _ => false

/-- Numeric value of a `PyNum`. -/
def PyNum.toRat : PyNum → ℚ
  | .pint z => (z : ℚ)
  | .pfloat q => q

/-- The field state of a freshly constructed `ModuloPattern` (dataclass
defaults, lines 74-85): `min = math.inf`, `max = -math.inf`, every
collection empty. -/
def initModuloPattern (name : String) (vdim : ℕ) (modulo : ℚ)
    (min_periods min_items : ℤ) : ModuloPattern :=
  { name := name, vector_dimension := vdim, modulo := modulo,
    min_periods := min_periods, min_items := min_items,
    min := .inf, max := .ninf, remainders := [], quotients := [],
    remainderIndex := [], kdeCache := [], vecCache := [] }

/-- Model of `ModuloPattern.__post_init__` (lines 87-111) as a fallible constructor,
with the source's check order: empty `name` raises `ValueError`,
`modulo == 0` raises `ValueError`, a `vector_dimension` that is not a
positive `int` raises `TypeError`; otherwise construction succeeds with the
dataclass defaults.  (The `isinstance(name, str)` check cannot fail in the
model, where `name` is a string; the x-axis checks concern the omitted
display-only fields.) -/
def mkModuloPattern (name : String) (vdim : PyNum) (modulo : PyNum)
    (min_periods min_items : ℤ) : Except PErr ModuloPattern :=
  if name = "" then .error .valueError
  else if modulo.isZero then .error .valueError
  else if ¬ vdim.isPosInt then .error .typeError
  else .ok (initModuloPattern name
    (match vdim with | .pint z => z.toNat | .pfloat _ => 0)
    modulo.toRat min_periods min_items)

/-- Whether an `Except` result is a success. -/
def exceptOk {ε α : Type} : Except ε α → Bool
  | .ok _ => true
  | .error _ => false

/-- The error carried by an `Except` result, if any. -/
def exceptErr {ε α : Type} : Except ε α → Option ε
  | .ok _ => none
  | .error e => some e

/-!
The density-estimation layer (`src/kernel_density.py`).

The scikit-learn estimator is abstracted by `KdeModel`: the repository calls
`KernelDensity(kernel, bandwidth).fit(xs)` followed by
`exp(score_samples(pt))`; the model composes those into one scoring
function, applied pointwise to the sample grid exactly as the source does.
-/

/-- Abstract density scorer: kernel name, bandwidth, fitted data, and the
evaluation point give the estimated density there. -/
def KdeModel : Type := String → ℝ → List ℝ → ℝ → ℝ

/-- Model of `np.linspace(min_val, max_val, n)`: `n` evenly spaced samples with both
endpoints included (for `n = 1` numpy yields just `[min_val]`, matched here
because `x / 0 = 0` in `ℝ`). -/
noncomputable def linspace (min_val max_val : ℝ) (n : ℕ) : List ℝ :=
  (List.range n).map
    (fun i : ℕ => min_val + (max_val - min_val) * (i : ℝ) / ((n : ℝ) - 1))

/-- Python `%` on floats (also numpy's `%`): floor-based remainder. -/
noncomputable def pyFmod (x m : ℝ) : ℝ := x - m * ⌊x / m⌋

/-- Model of `plot_kde` (kernel_density.py, lines 16-32): asserts
`max_val > min_val` and `n_samples > 0`, defaults the bandwidth to 3% of the
overall width, fits the estimator on `xs` and samples it at `n_samples`
evenly spaced points. -/
noncomputable def plot_kde (K : KdeModel) (xs : List ℝ) (min_val max_val : ℝ)
    (kernel : String) (bandwidth : Option ℝ) (n_samples : ℕ) : Option Curve :=
  if min_val < max_val ∧ 0 < n_samples then
    let bw := bandwidth.getD ((max_val - min_val) * 0.03)
    let kde_xs := linspace min_val max_val n_samples
    some (kde_xs, kde_xs.map (K kernel bw xs))
  else none

/-- Model of `plot_kde_modulo` (kernel_density.py, lines 35-41): asserts
`n_samples > 0`, folds the data into `[0, modulo)`, extends it by the copies
shifted by `-modulo` and `+modulo`, fits over `[0, modulo]` with
`n_samples + 1` grid points and drops the duplicate closing sample. -/
noncomputable def plot_kde_modulo (K : KdeModel) (xs : List ℝ) (modulo : ℝ)
    (kernel : String) (bandwidth : Option ℝ) (n_samples : ℕ) : Option Curve :=
  if 0 < n_samples then
    let xs_mod := xs.map (fun x => pyFmod x modulo)
    let xs_extended := (xs_mod.map (fun x => x - modulo)) ++ xs_mod
      ++ (xs_mod.map (fun x => x + modulo))
    (plot_kde K xs_extended 0 modulo kernel bandwidth (n_samples + 1)).map
      (fun c => (c.1.dropLast, c.2.dropLast))
  else none

/-- Model of `ModuloPattern.kde(dim)` (periodic_patterns_v2.py, lines 127-131): the
memoized circular density curve over the remainders with `modulo = 1`.  The
`getD` default covers the assert-failure case of `plot_kde_modulo`, which is
unreachable for the positive `dim` values the class passes. -/
noncomputable def ModuloPattern.kde (K : KdeModel) (p : ModuloPattern)
    (dim : ℕ) : Curve :=
  match alookup dim p.kdeCache with
  | some c => c
  | none =>
    (plot_kde_modulo K (p.remainders.map (fun q => (q : ℝ))) 1 "gaussian"
      none dim).getD ([], [])

/-- Model of `ModuloPattern.vector` (lines 133-139): the density curve at
`vector_dimension` samples, L2-normalized (`sum(elem ** 2) ** 0.5`). -/
noncomputable def ModuloPattern.vector (K : KdeModel) (p : ModuloPattern) :
    List ℝ :=
  if p.vecCache.length ≠ p.vector_dimension then
    let kde_ys := (p.kde K p.vector_dimension).2
    let vector_length := ((kde_ys.map (fun e => e ^ (2 : ℕ))).sum) ^ ((0.5 : ℝ))
    kde_ys.map (fun e => e / vector_length)
  else p.vecCache

/-- The loop of CPython's `bisect.bisect_left(a, x, lo, hi)`:
`while lo < hi: mid = (lo+hi)//2; if a[mid] < x: lo = mid+1 else: hi = mid`. -/
noncomputable def bisectLeftLoop (a : List ℝ) (x : ℝ) (lo hi : ℕ) : ℕ :=
  if h : lo < hi then
    if a.getD ((lo + hi) / 2) 0 < x then bisectLeftLoop a x ((lo + hi) / 2 + 1) hi
    else bisectLeftLoop a x lo ((lo + hi) / 2)
  else lo
termination_by hi - lo
decreasing_by
  all_goals omega

/-- Model of `bisect.bisect_left(a, x)`. -/
noncomputable def bisect_left (a : List ℝ) (x : ℝ) : ℕ := bisectLeftLoop a x 0 a.length

/-- Model of `ModuloPattern.likelihood(value)` (lines 220-223): take
`remainder = value mod modulo`, binary-search the memoized default curve
(1000 samples) for the first sampled x not below it, wrap the index modulo
the curve length, and return the corresponding density. -/
noncomputable def ModuloPattern.likelihood (K : KdeModel) (p : ModuloPattern)
    (value : ℚ) : ℝ :=
  let c := p.kde K 1000
  let remainder : ℚ := value - p.modulo * ⌊value / p.modulo⌋
  let idx := (bisect_left c.1 (remainder : ℝ)) % c.1.length
  c.2.getD idx 0

/-!
The calendar model (`datetime` arithmetic used by the phase functions,
periodic_patterns_v2.py lines 226-294).  A `datetime.datetime` is its
wall-clock fields plus a time-zone offset; CPython's proleptic-Gregorian
ordinal arithmetic is reproduced exactly.  `datetime` rejects years outside
`1..9999`; the two places where the phase functions step past that bound
(`_start + timedelta(days=35)` for December 9999, `replace(year=year+1)`
for year 9999) are modelled as failures.
-/

/-- Gregorian leap-year rule. -/
def isLeapYear (y : ℕ) : Bool := (y % 4 = 0 && y % 100 ≠ 0) || y % 400 = 0

/-- Days in a month of a given year (months are 1-based; other inputs are
unreachable for valid dates). -/
def daysInMonth (y m : ℕ) : ℕ :=
  match m with
  | 1 => 31 | 2 => if isLeapYear y then 29 else 28 | 3 => 31 | 4 => 30
  | 5 => 31 | 6 => 30 | 7 => 31 | 8 => 31 | 9 => 30 | 10 => 31
  | 11 => 30 | 12 => 31 | _ => 0

/-- CPython `_days_before_year`: days between 0001-01-01 and January 1 of
the given year (`y*365 + y//4 - y//100 + y//400` with `y = year - 1`). -/
def daysBeforeYear (year : ℕ) : ℤ :=
  let y : ℤ := (year : ℤ) - 1
  y * 365 + y.fdiv 4 - y.fdiv 100 + y.fdiv 400

/-- CPython `_days_before_month`: days in the given year preceding the
first of the given month. -/
def daysBeforeMonth (year month : ℕ) : ℤ :=
  (((List.range (month - 1)).map (fun i => daysInMonth year (i + 1))).sum : ℤ)

/-- CPython `date.toordinal()`: proleptic Gregorian ordinal
(0001-01-01 is day 1). -/
def toOrdinal (year month day : ℕ) : ℤ :=
  daysBeforeYear year + daysBeforeMonth year month + day

/-- A `datetime.datetime`: wall-clock fields plus the UTC offset (seconds)
of its time zone.  The claims concern aware datetimes, whose zone the
aggregator immediately overwrites. -/
structure PyDatetime where
  year : ℕ
  month : ℕ
  day : ℕ
  hour : ℕ
  minute : ℕ
  second : ℕ
  microsecond : ℕ
  tzoffset : ℤ
  deriving DecidableEq, Repr

/-- Seconds since midnight of the wall-clock time of day. -/
def secondsIntoDay (t : PyDatetime) : ℚ :=
  (t.hour : ℚ) * 3600 + (t.minute : ℚ) * 60 + (t.second : ℚ)
    + (t.microsecond : ℚ) / 1000000

/-- Wall-clock seconds since the epoch 1970-01-01 00:00
(`toOrdinal 1970 1 1 = 719163`). -/
def wallSeconds (t : PyDatetime) : ℚ :=
  ((toOrdinal t.year t.month t.day - 719163 : ℤ) : ℚ) * 86400 + secondsIntoDay t

/-- Model of `datetime.timestamp()` of an aware datetime: the wall-clock epoch
seconds minus the zone's UTC offset. -/
def pyTimestamp (t : PyDatetime) : ℚ := wallSeconds t - (t.tzoffset : ℚ)

/-- Model of `datetime.weekday()`: 0 = Monday; 1970-01-01 was a Thursday (3). -/
def PyDatetime.weekday (t : PyDatetime) : ℤ :=
  (toOrdinal t.year t.month t.day - 719163 + 3) % 7

/-- Model of `timestamp.replace(tzinfo=datetime.timezone.utc)`: keeps every
wall-clock field and overwrites the zone with UTC. -/
def replaceUtc (t : PyDatetime) : PyDatetime := { t with tzoffset := 0 }

/-- Python float `%` on exact values (floor-based remainder). -/
def pyFmodQ (x m : ℚ) : ℚ := x - m * ⌊x / m⌋

/-- Model of `timestamp_day` (lines 239-244): integer days since the epoch taken
from `timestamp()` (so it uses the instant), plus the wall-clock fraction
of the day. -/
def timestamp_day (t : PyDatetime) : ℚ :=
  ((⌊pyTimestamp t / 86400⌋ : ℤ) : ℚ) + secondsIntoDay t / 86400

/-- Model of `timestamp_week` (lines 247-252): weeks since the first Monday after
the epoch, plus the position inside the week from `weekday()`. -/
def timestamp_week (t : PyDatetime) : ℚ :=
  let quotient : ℚ := ((⌊timestamp_day t⌋ : ℤ) : ℚ)
  let remainder : ℚ := timestamp_day t - ((⌊timestamp_day t⌋ : ℤ) : ℚ)
  let week_fraction := ((t.weekday : ℚ) + remainder) / 7
  let week_since_epoch : ℚ := ((⌊(quotient + 3) / 7⌋ : ℤ) : ℚ)
  week_since_epoch + week_fraction

/-- Model of `timestamp_two_week` (lines 255-260). -/
def timestamp_two_week (t : PyDatetime) : ℚ :=
  let quotient : ℚ := ((⌊timestamp_day t⌋ : ℤ) : ℚ)
  let remainder : ℚ := timestamp_day t - ((⌊timestamp_day t⌋ : ℤ) : ℚ)
  let two_week_fraction := (pyFmodQ (quotient + 3) 14 + remainder) / 14
  let two_week_since_epoch : ℚ := ((⌊(quotient + 3) / 14⌋ : ℤ) : ℚ)
  two_week_since_epoch + two_week_fraction

/-- Model of `_timestamp_month` (lines 264-269): months since the epoch plus the
elapsed fraction of the current month.  The end of the month is obtained as
`(_start + timedelta(days=35)).replace(day=1)`; for December 9999 that
addition overflows past `datetime.max` and raises, modelled as `none`. -/
def timestampMonthBase (t : PyDatetime) : Option ℚ :=
  if t.month = 12 ∧ t.year = 9999 then none
  else
    let start : PyDatetime :=
      { t with day := 1, hour := 0, minute := 0, second := 0, microsecond := 0 }
    let stop : PyDatetime :=
      { t with year := if t.month = 12 then t.year + 1 else t.year,
               month := if t.month = 12 then 1 else t.month + 1,
               day := 1, hour := 0, minute := 0, second := 0, microsecond := 0 }
    let month_fraction :=
      (wallSeconds t - wallSeconds start) / (wallSeconds stop - wallSeconds start)
    let month_since_epoch : ℤ := ((t.year : ℤ) - 1970) * 12 + (t.month : ℤ) - 1
    some ((month_since_epoch : ℚ) + month_fraction)

/-- Model of `timestamp_n_month` (lines 272-277): fold the month index modulo `n`
into the fraction. -/
def timestamp_n_month (t : PyDatetime) (n : ℕ) : Option ℚ :=
  (timestampMonthBase t).map (fun v =>
    let quotient : ℚ := ((⌊v⌋ : ℤ) : ℚ)
    let remainder : ℚ := v - ((⌊v⌋ : ℤ) : ℚ)
    let n_month_fraction := (pyFmodQ quotient (n : ℚ) + remainder) / (n : ℚ)
    let n_month_since_epoch : ℚ := ((⌊quotient / (n : ℚ)⌋ : ℤ) : ℚ)
    n_month_since_epoch + n_month_fraction)

/-- Model of `_timestamp_year` (lines 281-286): years since 1970 plus the elapsed
fraction of the current year; `_start.replace(year=timestamp.year + 1)`
raises for year 9999 (`datetime.MAXYEAR`), modelled as `none`. -/
def timestampYearBase (t : PyDatetime) : Option ℚ :=
  if t.year = 9999 then none
  else
    let start : PyDatetime :=
      { t with month := 1, day := 1, hour := 0, minute := 0, second := 0,
               microsecond := 0 }
    let stop : PyDatetime := { start with year := t.year + 1 }
    let year_fraction :=
      (wallSeconds t - wallSeconds start) / (wallSeconds stop - wallSeconds start)
    let year_since_epoch : ℤ := (t.year : ℤ) - 1970
    some ((year_since_epoch : ℚ) + year_fraction)

/-- Model of `timestamp_n_year` (lines 289-294). -/
def timestamp_n_year (t : PyDatetime) (n : ℕ) : Option ℚ :=
  (timestampYearBase t).map (fun v =>
    let quotient : ℚ := ((⌊v⌋ : ℤ) : ℚ)
    let remainder : ℚ := v - ((⌊v⌋ : ℤ) : ℚ)
    let n_year_fraction := (pyFmodQ quotient (n : ℚ) + remainder) / (n : ℚ)
    let n_year_since_epoch : ℚ := ((⌊quotient / (n : ℚ)⌋ : ℤ) : ℚ)
    n_year_since_epoch + n_year_fraction)

/-- The weekday names indexed by `datetime.weekday()`. -/
def days_of_week : List String :=
  ["Monday", "Tuesday", "Wednesday", "Thursday", "Friday", "Saturday", "Sunday"]

/-- Model of `timestamp_hour_of_day_of_week_of_month` (lines 226-236): the hour, the
1-based 7-day-period of the month, the count of full weeks, and the weekday
name. -/
def timestamp_hour_of_day_of_week_of_month (t : PyDatetime) :
    ℕ × ℤ × ℤ × String :=
  let n : ℤ := ((t.day : ℤ) + 1).fdiv 7 + 1
  let full_week : ℤ := ((t.day : ℤ) + 6 - t.weekday).fdiv 7
  let day_of_week := days_of_week.getD t.weekday.toNat ""
  (t.hour, n, full_week, day_of_week)

/-!
`TimeStampSetV2` (periodic_patterns_v2.py lines 297-458).
-/

/-- Python `set.add` on an index set (modelled as an insertion-ordered
duplicate-free list). -/
def setAdd (s : List ℕ) (i : ℕ) : List ℕ := if i ∈ s then s else s ++ [i]

/-- Python `d.setdefault(k, set()).add(i)`. -/
def setdefaultAdd {κ : Type} [DecidableEq κ] (d : List (κ × List ℕ)) (k : κ)
    (i : ℕ) : List (κ × List ℕ) :=
  match d with
  | [] => [(k, [i])]
  | (k', v) :: rest =>
    if k' = k then (k', setAdd v i) :: rest
    else (k', v) :: setdefaultAdd rest k i

/-- The state of `TimeStampSetV2`: the timestamp log, the three auxiliary
count indices, and the nine per-granularity patterns. -/
structure TimeStampSetV2 where
  timestamps : List PyDatetime
  hour_day : List ((ℕ × String) × List ℕ)
  n_day : List ((ℤ × String) × List ℕ)
  n_week : List ((ℤ × String) × List ℕ)
  day : ModuloPattern
  week : ModuloPattern
  two_week : ModuloPattern
  month : ModuloPattern
  two_month : ModuloPattern
  three_month : ModuloPattern
  six_month : ModuloPattern
  year : ModuloPattern
  two_year : ModuloPattern

/-- Model of `TimeStampSetV2.__init__` (lines 298-350): empty log and indices, and
the nine patterns with the per-granularity thresholds of the source
(defaults `min_periods=4`, `min_items=12`, `vector_dimension=128`,
`modulo=1` except where overridden). -/
def tssInit : TimeStampSetV2 :=
  { timestamps := [], hour_day := [], n_day := [], n_week := [],
    day := initModuloPattern "day" 128 1 0 12,
    week := initModuloPattern "week" 128 1 4 12,
    two_week := initModuloPattern "fortnight" 128 1 12 12,
    month := initModuloPattern "month" 128 1 4 12,
    two_month := initModuloPattern "2-month" 128 1 6 12,
    three_month := initModuloPattern "quarter" 128 1 4 12,
    six_month := initModuloPattern "6-month" 128 1 4 24,
    year := initModuloPattern "year" 128 1 4 36,
    two_year := initModuloPattern "2-year" 128 1 4 72 }

/-- One iteration of the loop in `TimeStampSetV2.add` (lines 361-386):
replace the zone with UTC, append to the log, update the three count
indices, then feed each of the nine phase coordinates to the matching
pattern in order.  A phase computation that raises aborts the iteration,
leaving the updates made so far in place (Python has no rollback); the
state at that point is returned together with the error. -/
def TimeStampSetV2.addOne (s : TimeStampSetV2) (t0 : PyDatetime) :
    TimeStampSetV2 × Option PErr :=
  let t := replaceUtc t0
  let timestamp_idx := s.timestamps.length
  let s := { s with timestamps := s.timestamps ++ [t] }
  let hw := timestamp_hour_of_day_of_week_of_month t
  let s := { s with hour_day := setdefaultAdd s.hour_day (hw.1, hw.2.2.2) timestamp_idx }
  let s := { s with n_day := setdefaultAdd s.n_day (hw.2.1, hw.2.2.2) timestamp_idx }
  let s := { s with n_week := setdefaultAdd s.n_week (hw.2.2.1, hw.2.2.2) timestamp_idx }
  let s := { s with day := s.day.add (timestamp_day t) none }
  let s := { s with week := s.week.add (timestamp_week t) none }
  let s := { s with two_week := s.two_week.add (timestamp_two_week t) none }
  match timestamp_n_month t 1 with
  | none => (s, some .overflowError)
  | some m1 =>
  let s := { s with month := s.month.add m1 none }
  match timestamp_n_month t 2 with
  | none => (s, some .overflowError)
  | some m2 =>
  let s := { s with two_month := s.two_month.add m2 none }
  match timestamp_n_month t 3 with
  | none => (s, some .overflowError)
  | some m3 =>
  let s := { s with three_month := s.three_month.add m3 none }
  match timestamp_n_month t 6 with
  | none => (s, some .overflowError)
  | some m6 =>
  let s := { s with six_month := s.six_month.add m6 none }
  match timestamp_n_year t 1 with
  | none => (s, some .valueError)
  | some y1 =>
  let s := { s with year := s.year.add y1 none }
  match timestamp_n_year t 2 with
  | none => (s, some .valueError)
  | some y2 =>
  ({ s with two_year := s.two_year.add y2 none }, none)

/-- Model of `TimeStampSetV2.add(*timestamps)`: the loop over the batch; a failure
stops the loop with earlier timestamps committed. -/
def TimeStampSetV2.add : TimeStampSetV2 → List PyDatetime →
    TimeStampSetV2 × Option PErr
  | s, [] => (s, none)
  | s, t :: rest =>
    match s.addOne t with
    | (s', none) => s'.add rest
    | (s', some e) => (s', some e)

/-- Stable insertion by instant, modelling Python `sorted` on aware
datetimes (which compare by `timestamp()`). -/
def insertTs (t : PyDatetime) : List PyDatetime → List PyDatetime
  | [] => [t]
  | u :: us =>
    if pyTimestamp u < pyTimestamp t then u :: insertTs t us
    else t :: u :: us

/-- Python `sorted(timestamps)` (stable, ascending by instant). -/
def sortTs (ts : List PyDatetime) : List PyDatetime := ts.foldr insertTs []

/-- The body of the loop in `TimeStampSetV2.likelihood` (lines 426-441):
replace the zone with UTC and collect the point likelihood of every one of
the nine patterns — with no validity filtering — in the fixed order. -/
noncomputable def TimeStampSetV2.likOne (K : KdeModel) (s : TimeStampSetV2)
    (t0 : PyDatetime) : Option (List ℝ) :=
  let t := replaceUtc t0
  match timestamp_n_month t 1, timestamp_n_month t 2, timestamp_n_month t 3,
      timestamp_n_month t 6, timestamp_n_year t 1, timestamp_n_year t 2 with
  | some m1, some m2, some m3, some m6, some y1, some y2 =>
    some [s.day.likelihood K (timestamp_day t),
          s.week.likelihood K (timestamp_week t),
          s.two_week.likelihood K (timestamp_two_week t),
          s.month.likelihood K m1,
          s.two_month.likelihood K m2,
          s.three_month.likelihood K m3,
          s.six_month.likelihood K m6,
          s.year.likelihood K y1,
          s.two_year.likelihood K y2]
  | _, _, _, _, _, _ => none

/-- The generalized-mean aggregation used by both `likelihood` and
`similarity`: `(sum(x ** 0.1 for x in xs) / len(xs)) ** 10`. -/
noncomputable def powerMean01 (xs : List ℝ) : ℝ :=
  ((xs.map (fun x => x ^ (0.1 : ℝ))).sum / (xs.length : ℝ)) ^ (10 : ℕ)

/-- Model of `TimeStampSetV2.likelihood(*timestamps)` (lines 422-444): sort the
batch, collect the nine per-pattern likelihoods of each timestamp, and map
the power-mean aggregation over the per-timestamp lists. -/
noncomputable def TimeStampSetV2.likelihood (K : KdeModel)
    (s : TimeStampSetV2) (ts : List PyDatetime) : Option (List ℝ) :=
  ((sortTs ts).mapM (s.likOne K)).map (fun ls => ls.map powerMean01)

/-- Model of `dot_product` (lines 19-20). -/
def dot_product (vec_1 vec_2 : List ℝ) : ℝ :=
  (List.zipWith (fun x y => x * y) vec_1 vec_2).sum

/-- The fixed list of the nine patterns, in the order of `_patterns`
(lines 352-359). -/
def TimeStampSetV2.patterns (s : TimeStampSetV2) : List ModuloPattern :=
  [s.day, s.week, s.two_week, s.month, s.two_month, s.three_month,
   s.six_month, s.year, s.two_year]

/-- Model of `_patterns` (lines 352-359): the valid patterns only. -/
def TimeStampSetV2.validPatterns (s : TimeStampSetV2) : List ModuloPattern :=
  s.patterns.filter (fun p => p.is_valid)

/-- Python dict insertion: an existing key keeps its position and gets the
new value; a new key is appended. -/
def dictInsert {α : Type} (d : List (String × α)) (k : String) (v : α) :
    List (String × α) :=
  match d with
  | [] => [(k, v)]
  | (k', v') :: rest =>
    if k' = k then (k, v) :: rest else (k', v') :: dictInsert rest k v

/-- A Python dict comprehension over a pair sequence. -/
def dictOfPairs {α : Type} (ps : List (String × α)) : List (String × α) :=
  ps.foldl (fun d kv => dictInsert d kv.1 kv.2) []

/-- Model of `TimeStampSetV2.vectors` (lines 388-390): name-to-embedding dict over
the valid patterns (the source filters `_patterns`, which is already
valid-only, by validity again). -/
noncomputable def TimeStampSetV2.vectors (K : KdeModel) (s : TimeStampSetV2) :
    List (String × List ℝ) :=
  dictOfPairs ((s.validPatterns.filter (fun p => p.is_valid)).map
    (fun p => (p.name, p.vector K)))

/-- Model of `TimeStampSetV2.similarity(other)` (lines 446-458): dot products of the
embeddings of the patterns valid in both sets, aggregated with the
power mean; `(0, 0)` when no pattern is comparable. -/
noncomputable def TimeStampSetV2.similarity (K : KdeModel)
    (a b : TimeStampSetV2) : ℝ × ℕ :=
  let other_vectors := b.vectors K
  let similarities := (a.vectors K).filterMap
    (fun nv => (alookup nv.1 other_vectors).map (fun w => dot_product nv.2 w))
  if similarities.length = 0 then (0, 0)
  else (powerMean01 similarities, similarities.length)

/-!
Specification-side definitions and concrete inputs used by the claims.
-/

/-- The name-to-embedding pairs of the valid patterns of a pattern list,
before Python-dict deduplication (with the nine distinct fixed names the
dict step is the identity). -/
noncomputable def vectorsOfList (K : KdeModel) (ps : List ModuloPattern) :
    List (String × List ℝ) :=
  (ps.filter (fun p => p.is_valid)).map (fun p => (p.name, p.vector K))

/-- The per-pattern similarity list computed the way the source does:
iterate the first set's valid vectors and look each name up in the second
set's valid vectors. -/
noncomputable def simPairs (K : KdeModel) (xs ys : List ModuloPattern) :
    List ℝ :=
  (vectorsOfList K xs).filterMap
    (fun nv => (alookup nv.1 (vectorsOfList K ys)).map
      (fun w => dot_product nv.2 w))

/-- The similarity computation as the specification words it: for exactly
the (positionally matched, identically named) patterns valid in both sets,
the dot product of the two unit embeddings, aggregated by the power mean,
together with the count of compared patterns; `(0, 0)` when no pattern name
is valid in both. -/
noncomputable def similaritySpec (K : KdeModel) (a b : TimeStampSetV2) :
    ℝ × ℕ :=
  let sims := ((a.patterns.zip b.patterns).filter
      (fun pq => pq.1.is_valid && pq.2.is_valid)).map
    (fun pq => dot_product (pq.1.vector K) (pq.2.vector K))
  if sims.length = 0 then (0, 0) else (powerMean01 sims, sims.length)

/-- A `TimeStampSetV2` state is well formed when its nine patterns carry
the fixed names `__init__` gives them (every state the class produces does:
nothing ever writes a pattern's `name`). -/
def TSSwf (s : TimeStampSetV2) : Prop :=
  s.patterns.map ModuloPattern.name =
    ["day", "week", "fortnight", "month", "2-month", "quarter", "6-month",
     "year", "2-year"]

instance : DecidablePred TSSwf := fun s => by unfold TSSwf; infer_instance

/-- A `ModuloPattern` state is well formed when its extrema are either the
initial `(inf, -inf)` pair or a pair of finite values with `min ≤ max` —
exactly the states reachable from construction through `add`. -/
def mpWellFormed (p : ModuloPattern) : Bool :=
  match p.min, p.max with
  | .inf, .ninf => true
  | .fin a, .fin b => a ≤ b
  | _, _ => false

/-- A degenerate density scorer used to instantiate the abstract estimator
in witnesses. -/
def constKde : KdeModel := fun _ _ _ _ => 0

/-- A pattern whose distinct quotient values are `{1, 2, 3, 5, 6, 9}`
(`modulo = 1`, values 1.5, 2.5, 3.5, 5.5, 6.5, 9.5). -/
def consecutiveExample : ModuloPattern :=
  ((((((initModuloPattern "example" 128 1 4 12).add (3/2) none).add (5/2)
    none).add (7/2) none).add (11/2) none).add (13/2) none).add (19/2) none

/-- Model of `ModuloPattern(name='x', modulo=-1, min_periods=4, min_items=0)`:
construction accepts it (only `modulo == 0` is rejected, and `min_items` is
not validated). -/
def negModuloPattern : ModuloPattern := initModuloPattern "x" 128 (-1) 4 0

/-- Model of `datetime.datetime(9999, 6, 1)` in UTC: every phase computation up to
the 6-month one succeeds, but `_timestamp_year` raises. -/
def overflowTs : PyDatetime := ⟨9999, 6, 1, 0, 0, 0, 0, 0⟩

/-- Model of `1970-01-02 12:00:00+00:00`. -/
def instantA : PyDatetime := ⟨1970, 1, 2, 12, 0, 0, 0, 0⟩

/-- Model of `1970-01-02 13:00:00+01:00`: the same instant as `instantA`, carried in
a different time zone. -/
def instantB : PyDatetime := ⟨1970, 1, 2, 13, 0, 0, 0, 3600⟩

/-- An unremarkable timestamp, `2020-01-01 00:00:00+00:00`. -/
def sampleTs : PyDatetime := ⟨2020, 1, 1, 0, 0, 0, 0, 0⟩

/-- The set state obtained from a fresh `TimeStampSetV2` by adding
`sampleTs`. -/
def tssOne : TimeStampSetV2 := (tssInit.addOne sampleTs).1

/-- A `day` pattern state holding one observation together with a cached
density curve and a cached embedding vector. -/
def cachedPattern : ModuloPattern :=
  { initModuloPattern "day" 128 1 0 12 with
      min := .fin (3/2), max := .fin (3/2), remainders := [1/2],
      quotients := [(1, [none])], remainderIndex := [(1/2, [none])],
      kdeCache := [(1000, ([0], [1]))], vecCache := [1] }

/-!
Claim theorems.
-/

/-- C1: on a pattern whose distinct quotient values are `{1,2,3,5,6,9}`,
`consecutive(min_length=2)` is required (by the spec's own example) to
return `[[1,2,3],[5,6]]`; the code returns `[[1,2,3]]`: the quotient that
breaks a run is dropped instead of starting the next buffer, and the final
buffer is never flushed when the scan ends. -/
theorem consecutive_drops_runs :
    (consecutiveExample.quotients.map Prod.fst) = [1, 2, 3, 5, 6, 9] ∧
    consecutiveExample.consecutive 2 = [[1, 2, 3]] := by decide

/-- C5 counterexample: adding `9999-06-01` routes the phase value to the
seven patterns up to `six_month`, then `_timestamp_year` raises and the
`year`/`two_year` patterns never receive it — the nine-pattern routing of a
single timestamp is not atomic on failure. -/
theorem addOne_partial_routing_on_failure :
    (tssInit.addOne overflowTs).2 = some PErr.valueError ∧
    (tssInit.addOne overflowTs).1.day.remainders ≠ tssInit.day.remainders ∧
    (tssInit.addOne overflowTs).1.six_month.remainders ≠
      tssInit.six_month.remainders ∧
    (tssInit.addOne overflowTs).1.year.remainders = tssInit.year.remainders ∧
    (tssInit.addOne overflowTs).1.two_year.remainders =
      tssInit.two_year.remainders := by decide

/-- C6 counterexample: `1970-01-02 12:00+00:00` and `1970-01-02 13:00+01:00`
denote the same instant, yet after the `replace(tzinfo=utc)` step `add`
performs, their day-phase values and hence the resulting pattern states
differ: the code overwrites the zone instead of converting to UTC. -/
theorem add_differs_on_equal_instants :
    pyTimestamp instantA = pyTimestamp instantB ∧
    instantA.tzoffset ≠ instantB.tzoffset ∧
    timestamp_day (replaceUtc instantA) ≠ timestamp_day (replaceUtc instantB) ∧
    (tssInit.addOne instantA).1.day.remainders ≠
      (tssInit.addOne instantB).1.day.remainders := by decide

/-- C6 (amended): `add` and the per-timestamp likelihood computation
overwrite the caller-supplied zone with UTC while keeping the wall-clock
fields, so their results do not depend on the zone offset at all: changing
the offset of an input changes nothing. -/
theorem add_and_likelihood_ignore_offset (K : KdeModel) (s : TimeStampSetV2)
    (t : PyDatetime) (o : ℤ) :
    s.addOne { t with tzoffset := o } = s.addOne t ∧
    s.likOne K { t with tzoffset := o } = s.likOne K t := ⟨rfl, rfl⟩

/-- C7 counterexample: a non-numeric value makes `add` raise `TypeError`
at `min(value, self.min)`, but the two cache resets have already run: the
returned state differs from the original (its cached density curve and
embedding vector are gone), so rejection is not mutation-free. -/
theorem add_rejected_value_mutates_caches :
    (cachedPattern.addPy (.str "bad") none).2 = some PErr.typeError ∧
    (cachedPattern.addPy (.str "bad") none).1 ≠ cachedPattern ∧
    (cachedPattern.addPy (.str "bad") none).1.kdeCache = [] ∧
    (cachedPattern.addPy (.str "bad") none).1.vecCache = [] ∧
    (cachedPattern.addPy (.str "bad") none).1.min = cachedPattern.min ∧
    (cachedPattern.addPy (.str "bad") none).1.remainders =
      cachedPattern.remainders := by
  refine ⟨rfl, ?_, rfl, rfl, rfl, rfl⟩
  intro h
  have hc := congrArg ModuloPattern.kdeCache h
  simp [ModuloPattern.addPy, cachedPattern, initModuloPattern] at hc

/-- C7 (amended): a non-numeric value makes `add` fail with `TypeError`
and leaves `min`, `max`, `remainders` and the quotient/remainder indices
unchanged, but the cached density curve and the cached embedding vector are
cleared before the failure. -/
theorem add_rejected_value_state (p : ModuloPattern) (s : String) (it : Item) :
    p.addPy (.str s) it =
      ({ p with kdeCache := [], vecCache := [] }, some PErr.typeError) := rfl

/-- C8 counterexample: with a negative modulo (construction rejects only
zero) and `min_items = 0`, the empty pattern is valid (`n_periods` is
`+inf`), and the first `add` drops `n_periods` to `0`, making it invalid:
`add` can decrease `n_periods`, and `is_valid` is not preserved. -/
theorem is_valid_not_monotone :
    negModuloPattern.is_valid = true ∧
    (negModuloPattern.add 0 none).is_valid = false ∧
    XR.lt (negModuloPattern.add 0 none).n_periods
      negModuloPattern.n_periods = true := by decide

/-- C9: construction fails exactly on an empty name, a zero modulo, or a
vector dimension that is not a positive int — with `ValueError` for the
first two and `TypeError` for the third, in that order — and succeeds on
well-formed parameters. -/
theorem mkModuloPattern_fail_fast (name : String) (vdim modulo : PyNum)
    (mp mi : ℤ) :
    exceptOk (mkModuloPattern name vdim modulo mp mi)
      = (!(name == "") && !modulo.isZero && vdim.isPosInt) ∧
    exceptErr (mkModuloPattern name vdim modulo mp mi)
      = (if name = "" then some PErr.valueError
         else if modulo.isZero then some PErr.valueError
         else if ¬ vdim.isPosInt then some PErr.typeError else none) := by
  unfold mkModuloPattern exceptOk exceptErr
  split_ifs with h1 h2 h3 <;> simp_all

/-!
Helper lemmas for the `XR` operations on finite values.
-/

lemma pyMin_fin (x y : ℚ) : pyMin (.fin x) (.fin y) = .fin (if y < x then y else x) := by
  simp only [pyMin, XR.lt]
  split_ifs with h1 h2 h2 <;> simp_all

lemma pyMax_fin (x y : ℚ) : pyMax (.fin x) (.fin y) = .fin (if x < y then y else x) := by
  simp only [pyMax, XR.lt]
  split_ifs with h1 h2 h2 <;> simp_all

lemma le_fin (x y : ℚ) : XR.le (.fin x) (.fin y) = decide (x ≤ y) := rfl

lemma sub_fin (x y : ℚ) : XR.sub (.fin x) (.fin y) = .fin (x - y) := rfl

lemma divQ_fin (x m : ℚ) : XR.divQ (.fin x) m = .fin (x / m) := rfl

/-- C8 (amended): for every reachable pattern state with a positive modulo,
`add` never decreases `n_periods` or the remainder count, and `is_valid`
is preserved by `add`.  (With a negative modulo the empty pattern has
infinite `n_periods` and the claim fails, see the counterexample.) -/
theorem add_monotone_validity (p : ModuloPattern) (v : ℚ) (it : Item)
    (hwf : mpWellFormed p = true) (hm : 0 < p.modulo) :
    XR.le p.n_periods (p.add v it).n_periods = true ∧
    p.remainders.length ≤ (p.add v it).remainders.length ∧
    (p.is_valid = true → (p.add v it).is_valid = true) := by
  obtain ⟨name, vdim, m, mp, mi, pmin, pmax, rem, quo, ri, kc, vc⟩ := p
  simp only at hm
  cases pmin with
  | ninf => cases pmax <;> simp [mpWellFormed] at hwf
  | nan => cases pmax <;> simp [mpWellFormed] at hwf
  | inf =>
    cases pmax with
    | fin b => simp [mpWellFormed] at hwf
    | inf => simp [mpWellFormed] at hwf
    | nan => simp [mpWellFormed] at hwf
    | ninf =>
      refine ⟨?_, by simp [ModuloPattern.add, ModuloPattern.addPy], ?_⟩
      · simp [ModuloPattern.n_periods, ModuloPattern.add, ModuloPattern.addPy,
          pyMin, pyMax, XR.lt, XR.le, XR.sub, XR.divQ, hm, hm.ne']
      · intro h
        simp [ModuloPattern.is_valid, ModuloPattern.n_periods,
          ModuloPattern.add, ModuloPattern.addPy, pyMin, pyMax, XR.lt, XR.le,
          XR.sub, XR.divQ, hm] at h ⊢
        omega
  | fin a =>
    cases pmax with
    | ninf => simp [mpWellFormed] at hwf
    | inf => simp [mpWellFormed] at hwf
    | nan => simp [mpWellFormed] at hwf
    | fin b =>
      simp only [mpWellFormed, decide_eq_true_eq] at hwf
      simp only [ModuloPattern.add, ModuloPattern.addPy, ModuloPattern.n_periods,
        ModuloPattern.is_valid, pyMin_fin, pyMax_fin]
      simp only [← apply_ite XR.fin, sub_fin, divQ_fin]
      simp only [pyMax_fin, le_fin, List.length_append, List.length_cons,
        List.length_nil, Bool.and_eq_true, decide_eq_true_eq]
      have key : (b - a) / m ≤ ((if v < b then b else v) - (if a < v then a else v)) / m := by
        gcongr <;> split_ifs <;> linarith
      refine ⟨?_, by simp, ?_⟩
      · split_ifs at key ⊢ <;> linarith
      · rintro ⟨h1, h2⟩
        refine ⟨?_, by push_cast; omega⟩
        split_ifs at key h1 ⊢ <;> linarith


/-- Witness for C8 (amended) at a concrete one-observation pattern. -/
theorem add_monotone_validity_witness :
    (mpWellFormed cachedPattern = true ∧ 0 < cachedPattern.modulo) ∧
    (XR.le cachedPattern.n_periods
        (cachedPattern.add (5/2) none).n_periods = true ∧
      cachedPattern.remainders.length ≤
        (cachedPattern.add (5/2) none).remainders.length ∧
      (cachedPattern.is_valid = true →
        (cachedPattern.add (5/2) none).is_valid = true)) :=
  ⟨⟨by decide, by decide⟩,
    add_monotone_validity cachedPattern (5/2) none (by decide) (by decide)⟩

/-- C5 (amended): routing is sequential with no rollback, and for every
timestamp whose phase computations all succeed (wall-clock year below the
`datetime` maximum 9999), all nine patterns receive their phase value and
`addOne` reports no error.  On a failing phase the earlier patterns keep
the value (see the counterexample): the routing is not atomic. -/
theorem addOne_routes_all_nine_on_success (s : TimeStampSetV2)
    (t : PyDatetime) (h : t.year ≠ 9999) :
    (s.addOne t).2 = none ∧
    (s.addOne t).1.day = s.day.add (timestamp_day (replaceUtc t)) none ∧
    (s.addOne t).1.week = s.week.add (timestamp_week (replaceUtc t)) none ∧
    (s.addOne t).1.two_week =
      s.two_week.add (timestamp_two_week (replaceUtc t)) none ∧
    (s.addOne t).1.month =
      s.month.add ((timestamp_n_month (replaceUtc t) 1).getD 0) none ∧
    (s.addOne t).1.two_month =
      s.two_month.add ((timestamp_n_month (replaceUtc t) 2).getD 0) none ∧
    (s.addOne t).1.three_month =
      s.three_month.add ((timestamp_n_month (replaceUtc t) 3).getD 0) none ∧
    (s.addOne t).1.six_month =
      s.six_month.add ((timestamp_n_month (replaceUtc t) 6).getD 0) none ∧
    (s.addOne t).1.year =
      s.year.add ((timestamp_n_year (replaceUtc t) 1).getD 0) none ∧
    (s.addOne t).1.two_year =
      s.two_year.add ((timestamp_n_year (replaceUtc t) 2).getD 0) none := by
  obtain ⟨b, hb⟩ : ∃ b, timestampMonthBase (replaceUtc t) = some b := by
    simp [timestampMonthBase, replaceUtc, h]
  obtain ⟨c, hc⟩ : ∃ c, timestampYearBase (replaceUtc t) = some c := by
    simp [timestampYearBase, replaceUtc, h]
  simp [TimeStampSetV2.addOne, timestamp_n_month, timestamp_n_year, hb, hc]


/-- Witness for C5 (amended) at `2020-01-01` on a fresh set. -/
theorem addOne_routes_all_nine_on_success_witness :
    sampleTs.year ≠ 9999 ∧
    ((tssInit.addOne sampleTs).2 = none ∧
    (tssInit.addOne sampleTs).1.day =
      tssInit.day.add (timestamp_day (replaceUtc sampleTs)) none ∧
    (tssInit.addOne sampleTs).1.week =
      tssInit.week.add (timestamp_week (replaceUtc sampleTs)) none ∧
    (tssInit.addOne sampleTs).1.two_week =
      tssInit.two_week.add (timestamp_two_week (replaceUtc sampleTs)) none ∧
    (tssInit.addOne sampleTs).1.month =
      tssInit.month.add ((timestamp_n_month (replaceUtc sampleTs) 1).getD 0) none ∧
    (tssInit.addOne sampleTs).1.two_month =
      tssInit.two_month.add ((timestamp_n_month (replaceUtc sampleTs) 2).getD 0) none ∧
    (tssInit.addOne sampleTs).1.three_month =
      tssInit.three_month.add ((timestamp_n_month (replaceUtc sampleTs) 3).getD 0) none ∧
    (tssInit.addOne sampleTs).1.six_month =
      tssInit.six_month.add ((timestamp_n_month (replaceUtc sampleTs) 6).getD 0) none ∧
    (tssInit.addOne sampleTs).1.year =
      tssInit.year.add ((timestamp_n_year (replaceUtc sampleTs) 1).getD 0) none ∧
    (tssInit.addOne sampleTs).1.two_year =
      tssInit.two_year.add ((timestamp_n_year (replaceUtc sampleTs) 2).getD 0) none) :=
  ⟨by decide, addOne_routes_all_nine_on_success tssInit sampleTs (by decide)⟩

/-!
Sorting, routing and aggregation lemmas for `TimeStampSetV2.likelihood`.
-/

lemma insertTs_length (t : PyDatetime) (l : List PyDatetime) :
    (insertTs t l).length = l.length + 1 := by
  induction l with
  | nil => rfl
  | cons u us ih => simp only [insertTs]; split_ifs <;> simp [ih]

lemma sortTs_length (ts : List PyDatetime) : (sortTs ts).length = ts.length := by
  induction ts with
  | nil => rfl
  | cons t ts ih =>
    show (insertTs t (sortTs ts)).length = ts.length + 1
    rw [insertTs_length, ih]

lemma insertTs_mem (x t : PyDatetime) (l : List PyDatetime) :
    x ∈ insertTs t l ↔ x = t ∨ x ∈ l := by
  induction l with
  | nil => simp [insertTs]
  | cons u us ih =>
    simp only [insertTs]
    (split_ifs <;> simp [ih]); tauto

lemma sortTs_mem (x : PyDatetime) (ts : List PyDatetime) :
    x ∈ sortTs ts ↔ x ∈ ts := by
  induction ts with
  | nil => simp [sortTs]
  | cons t ts ih =>
    show x ∈ insertTs t (sortTs ts) ↔ x ∈ t :: ts
    rw [insertTs_mem, ih, List.mem_cons]

lemma likOne_isSome (K : KdeModel) (s : TimeStampSetV2) (t : PyDatetime)
    (h : t.year ≠ 9999) :
    ∃ xs, s.likOne K t = some xs ∧ xs.length = 9 := by
  obtain ⟨b, hb⟩ : ∃ b, timestampMonthBase (replaceUtc t) = some b := by
    simp [timestampMonthBase, replaceUtc, h]
  obtain ⟨c, hc⟩ : ∃ c, timestampYearBase (replaceUtc t) = some c := by
    simp [timestampYearBase, replaceUtc, h]
  simp [TimeStampSetV2.likOne, timestamp_n_month, timestamp_n_year, hb, hc]

lemma mapM_option_spec {α β : Type} (f : α → Option β) :
    ∀ l : List α, (∀ a ∈ l, (f a).isSome) →
      ∃ rs, l.mapM f = some rs ∧ rs.length = l.length ∧
        ∀ i : ℕ, rs[i]? = (l[i]?).bind f := by
  intro l
  induction l with
  | nil => intro _; exact ⟨[], rfl, rfl, by simp⟩
  | cons a l ih =>
    intro hall
    obtain ⟨b, hab⟩ := Option.isSome_iff_exists.mp (hall a (by simp))
    obtain ⟨rs, h1, h2, h3⟩ := ih (fun x hx => hall x (by simp [hx]))
    refine ⟨b :: rs, ?_, by simp [h2], ?_⟩
    · rw [List.mapM_cons, hab, h1]; rfl
    · intro i
      cases i with
      | zero => simp [hab]
      | succ n => simpa using h3 n


/-- C2: for a non-empty batch (of timestamps inside the representable year
range), `likelihood` succeeds with one scalar per input timestamp, and each
scalar is the power-mean-0.1 aggregation `(mean(x_i^0.1))^10` of the nine
point likelihoods collected from all nine patterns (`likOne` consults every
pattern with no validity filtering). -/
theorem likelihood_all_nine_power_mean (K : KdeModel) (s : TimeStampSetV2)
    (ts : List PyDatetime) (_hne : ts ≠ []) (h : ∀ t ∈ ts, t.year ≠ 9999) :
    ∃ res : List ℝ, s.likelihood K ts = some res ∧ res.length = ts.length ∧
      ∀ i : ℕ, i < ts.length →
        ∃ t xs, (sortTs ts)[i]? = some t ∧ s.likOne K t = some xs ∧
          xs.length = 9 ∧
          res[i]? = some
            (((xs.map (fun x => x ^ (0.1 : ℝ))).sum / (xs.length : ℝ)) ^ (10 : ℕ)) := by
  have hall : ∀ t ∈ sortTs ts, (s.likOne K t).isSome := by
    intro t ht
    obtain ⟨xs, hxs, _⟩ := likOne_isSome K s t (h t ((sortTs_mem t ts).mp ht))
    simp [hxs]
  obtain ⟨rs, h1, h2, h3⟩ := mapM_option_spec (s.likOne K) (sortTs ts) hall
  refine ⟨rs.map powerMean01, ?_, by simp [h2, sortTs_length], ?_⟩
  · unfold TimeStampSetV2.likelihood
    rw [h1]
    rfl
  · intro i hi
    have hi' : i < (sortTs ts).length := by rw [sortTs_length]; exact hi
    obtain ⟨t, ht⟩ : ∃ t, (sortTs ts)[i]? = some t := by
      simp [List.getElem?_eq_getElem hi']
    obtain ⟨xs, hxs, hlen⟩ :=
      likOne_isSome K s t (h t ((sortTs_mem t ts).mp (List.getElem?_mem ht)))
    have hrs : rs[i]? = some xs := by rw [h3 i, ht]; simpa using hxs
    refine ⟨t, xs, ht, hxs, hlen, ?_⟩
    rw [List.getElem?_map, hrs]
    rfl


/-- Witness for C2 at a one-element batch on a fresh set with a degenerate
scorer. -/
theorem likelihood_all_nine_power_mean_witness :
    (([sampleTs] : List PyDatetime) ≠ [] ∧
      ∀ t ∈ ([sampleTs] : List PyDatetime), t.year ≠ 9999) ∧
    (∃ res : List ℝ, tssInit.likelihood constKde [sampleTs] = some res ∧
      res.length = ([sampleTs] : List PyDatetime).length ∧
      ∀ i : ℕ, i < ([sampleTs] : List PyDatetime).length →
        ∃ t xs, (sortTs [sampleTs])[i]? = some t ∧
          tssInit.likOne constKde t = some xs ∧ xs.length = 9 ∧
          res[i]? = some
            (((xs.map (fun x => x ^ (0.1 : ℝ))).sum / (xs.length : ℝ)) ^ (10 : ℕ))) :=
  ⟨⟨by decide, by decide⟩,
    likelihood_all_nine_power_mean constKde tssInit [sampleTs] (by decide)
      (by decide)⟩

/-!
Dictionary and embedding-vector lemmas for `TimeStampSetV2.similarity`.
-/

lemma alookup_eq_none {α : Type} (k : String) (ps : List (String × α))
    (h : k ∉ ps.map Prod.fst) : alookup k ps = none := by
  induction ps with
  | nil => rfl
  | cons kv rest ih =>
    obtain ⟨k', v⟩ := kv
    simp only [List.map_cons, List.mem_cons] at h
    push_neg at h
    simp [alookup, Ne.symm h.1, ih h.2]

lemma vectorsOfList_cons (K : KdeModel) (p : ModuloPattern)
    (ps : List ModuloPattern) :
    vectorsOfList K (p :: ps) =
      (if p.is_valid then [(p.name, p.vector K)] else [])
        ++ vectorsOfList K ps := by
  simp only [vectorsOfList, List.filter_cons]
  split_ifs <;> simp

lemma mem_vectorsOfList_name (K : KdeModel) (nv : String × List ℝ)
    (ps : List ModuloPattern) (h : nv ∈ vectorsOfList K ps) :
    nv.1 ∈ ps.map ModuloPattern.name := by
  simp only [vectorsOfList, List.mem_map] at h
  obtain ⟨p, hp, rfl⟩ := h
  exact List.mem_map.mpr ⟨p, (List.mem_filter.mp hp).1, rfl⟩

lemma vectorsOfList_keys_sub (K : KdeModel) (k : String)
    (ps : List ModuloPattern) (h : k ∈ (vectorsOfList K ps).map Prod.fst) :
    k ∈ ps.map ModuloPattern.name := by
  simp only [List.mem_map] at h
  obtain ⟨nv, hnv, rfl⟩ := h
  exact mem_vectorsOfList_name K nv ps hnv

lemma filterMap_congr_mem {α β : Type} {f g : α → Option β} :
    ∀ {l : List α}, (∀ a ∈ l, f a = g a) → l.filterMap f = l.filterMap g
  | [], _ => rfl
  | a :: l, h => by
    simp only [List.filterMap_cons, h a (by simp)]
    rw [filterMap_congr_mem (fun x hx => h x (by simp [hx]))]

lemma simPairs_eq_zip (K : KdeModel) :
    ∀ (xs ys : List ModuloPattern),
      xs.map ModuloPattern.name = ys.map ModuloPattern.name →
      (xs.map ModuloPattern.name).Nodup →
      simPairs K xs ys =
        ((xs.zip ys).filter (fun pq => pq.1.is_valid && pq.2.is_valid)).map
          (fun pq => dot_product (pq.1.vector K) (pq.2.vector K)) := by
  intro xs
  induction xs with
  | nil =>
    intro ys hname _
    have : ys = [] := by simpa using (List.map_eq_nil_iff.mp hname.symm)
    subst this
    rfl
  | cons x xs ih =>
    intro ys hname hnodup
    cases ys with
    | nil => simp at hname
    | cons y ys =>
      simp only [List.map_cons, List.cons.injEq] at hname
      obtain ⟨hxy, htail⟩ := hname
      simp only [List.map_cons, List.nodup_cons] at hnodup
      obtain ⟨hxnot, hnodup'⟩ := hnodup
      have htailnames : x.name ∉ ys.map ModuloPattern.name := htail ▸ hxnot
      -- the tail lookups skip the head entry of the second list
      have htailskip : ∀ nv ∈ vectorsOfList K xs,
          alookup nv.1 (vectorsOfList K (y :: ys)) =
            alookup nv.1 (vectorsOfList K ys) := by
        intro nv hnv
        have hn : nv.1 ∈ xs.map ModuloPattern.name :=
          mem_vectorsOfList_name K nv xs hnv
        have hne : y.name ≠ nv.1 := by
          rw [← hxy]; intro hcon; exact hxnot (hcon ▸ hn)
        rw [vectorsOfList_cons]
        split_ifs with hv
        · simp [alookup, hne]
        · simp
      have hmain : simPairs K (x :: xs) (y :: ys) =
          (if x.is_valid && y.is_valid
            then [dot_product (x.vector K) (y.vector K)] else [])
            ++ simPairs K xs ys := by
        unfold simPairs
        rw [vectorsOfList_cons K x xs, List.filterMap_append]
        congr 1
        · cases hvx : x.is_valid <;> cases hvy : y.is_valid <;>
            simp only [Bool.and_self, Bool.false_and, Bool.true_and, if_false,
              if_true, List.filterMap_nil, List.filterMap_cons]
          · rfl
          · rfl
          · -- x valid, y invalid: head lookup misses
            rw [vectorsOfList_cons K y ys]
            simp only [hvy, if_neg, Bool.false_eq_true, not_false_eq_true,
              List.nil_append]
            rw [alookup_eq_none x.name (vectorsOfList K ys)
              (fun hmem => htailnames (vectorsOfList_keys_sub K x.name ys hmem))]
            rfl
          · -- both valid: head lookup hits
            rw [vectorsOfList_cons K y ys]
            simp only [hvy, if_pos, List.singleton_append]
            simp [alookup, hxy]
        · exact filterMap_congr_mem (fun nv hnv => by rw [htailskip nv hnv])
      rw [hmain, ih ys htail hnodup']
      simp only [List.zip_cons_cons, List.filter_cons]
      cases hvx : x.is_valid <;> cases hvy : y.is_valid <;> simp

lemma dictInsert_not_mem {α : Type} (d : List (String × α)) (k : String)
    (v : α) (h : k ∉ d.map Prod.fst) : dictInsert d k v = d ++ [(k, v)] := by
  induction d with
  | nil => rfl
  | cons kv rest ih =>
    obtain ⟨k', v'⟩ := kv
    simp only [List.map_cons, List.mem_cons] at h
    push_neg at h
    simp [dictInsert, h.1.symm, ih h.2]

lemma dictOfPairs_go {α : Type} :
    ∀ (ps acc : List (String × α)),
      ((acc ++ ps).map Prod.fst).Nodup →
      ps.foldl (fun d kv => dictInsert d kv.1 kv.2) acc = acc ++ ps
  | [], acc, _ => by simp
  | (k, v) :: ps, acc, h => by
    have hnotin : k ∉ acc.map Prod.fst := by
      intro hk
      have h' : (acc.map Prod.fst ++ k :: ps.map Prod.fst).Nodup := by
        simpa using h
      exact (List.nodup_append.mp h').2.2 hk (by simp)
    have hrearr : acc ++ (k, v) :: ps = (acc ++ [(k, v)]) ++ ps := by simp
    rw [List.foldl_cons]
    simp only
    rw [dictInsert_not_mem acc k v hnotin,
      dictOfPairs_go ps (acc ++ [(k, v)]) (by rw [← hrearr]; exact h), hrearr]

lemma dictOfPairs_eq_self {α : Type} (ps : List (String × α))
    (h : (ps.map Prod.fst).Nodup) : dictOfPairs ps = ps := by
  have := dictOfPairs_go ps [] (by simpa using h)
  simpa [dictOfPairs] using this

lemma vectors_eq_vectorsOfList (K : KdeModel) (s : TimeStampSetV2)
    (h : TSSwf s) : s.vectors K = vectorsOfList K s.patterns := by
  have hnodup : ((s.patterns.filter (fun p => p.is_valid)).map
      ModuloPattern.name).Nodup := by
    have hfix : (s.patterns.map ModuloPattern.name).Nodup := by
      rw [h]; decide
    exact hfix.sublist ((List.filter_sublist s.patterns).map ModuloPattern.name)
  unfold TimeStampSetV2.vectors TimeStampSetV2.validPatterns
  rw [List.filter_filter]
  simp only [Bool.and_self]
  rw [dictOfPairs_eq_self _ (by simpa [Function.comp] using hnodup)]
  rfl

lemma dot_product_comm (v w : List ℝ) : dot_product v w = dot_product w v := by
  unfold dot_product
  rw [List.zipWith_comm_of_comm _ (fun a b => mul_comm a b)]

/-- Shared bridge: under the fixed nine pattern names, `similarity` equals
the specification-style computation `similaritySpec`. -/
lemma similarity_eq_spec (K : KdeModel)
    (a b : TimeStampSetV2) (ha : TSSwf a) (hb : TSSwf b) :
    TimeStampSetV2.similarity K a b = similaritySpec K a b := by
  have hnames : a.patterns.map ModuloPattern.name =
      b.patterns.map ModuloPattern.name := by rw [ha, hb]
  have hnodup : (a.patterns.map ModuloPattern.name).Nodup := by rw [ha]; decide
  have hsims : (a.vectors K).filterMap
      (fun nv => (alookup nv.1 (b.vectors K)).map (fun w => dot_product nv.2 w))
      = ((a.patterns.zip b.patterns).filter
          (fun pq => pq.1.is_valid && pq.2.is_valid)).map
        (fun pq => dot_product (pq.1.vector K) (pq.2.vector K)) := by
    rw [vectors_eq_vectorsOfList K a ha, vectors_eq_vectorsOfList K b hb]
    exact simPairs_eq_zip K a.patterns b.patterns hnames hnodup
  simp only [TimeStampSetV2.similarity, similaritySpec]
  rw [hsims]

/-- C3: `similarity` computes, for exactly the pattern names valid in both
sets (the positionally matched patterns, which carry the nine fixed distinct
names), the dot product of the two unit embeddings, aggregates them with the
power-mean-0.1 rule, and returns the pair (combined score, number of
patterns compared); with no comparable pattern it returns `(0, 0)` (the
branch inside `similaritySpec`), not an error. -/
theorem similarity_valid_common_power_mean (K : KdeModel)
    (a b : TimeStampSetV2) (ha : TSSwf a) (hb : TSSwf b) :
    TimeStampSetV2.similarity K a b = similaritySpec K a b :=
  similarity_eq_spec K a b ha hb

/-- C10: `similarity` is symmetric — both orders compare the same set of
pattern names (valid in both), and each dot product of unit embeddings is
commutative, so the combined score and the count agree. -/
theorem similarity_symm (K : KdeModel) (a b : TimeStampSetV2)
    (ha : TSSwf a) (hb : TSSwf b) :
    TimeStampSetV2.similarity K a b = TimeStampSetV2.similarity K b a := by
  rw [similarity_eq_spec K a b ha hb, similarity_eq_spec K b a hb ha]
  have hzip : b.patterns.zip a.patterns =
      (a.patterns.zip b.patterns).map Prod.swap := (List.zip_swap _ _).symm
  have hlist : ((b.patterns.zip a.patterns).filter
        (fun pq => pq.1.is_valid && pq.2.is_valid)).map
      (fun pq => dot_product (pq.1.vector K) (pq.2.vector K))
      = ((a.patterns.zip b.patterns).filter
          (fun pq => pq.1.is_valid && pq.2.is_valid)).map
        (fun pq => dot_product (pq.1.vector K) (pq.2.vector K)) := by
    rw [hzip, List.filter_map, List.map_map]
    rw [List.filter_congr
      (fun pq _ => show ((fun pq : ModuloPattern × ModuloPattern =>
        pq.1.is_valid && pq.2.is_valid) ∘ Prod.swap) pq
          = (fun pq : ModuloPattern × ModuloPattern =>
            pq.1.is_valid && pq.2.is_valid) pq
        from by simp [Bool.and_comm])]
    exact List.map_congr_left
      (fun pq _ => by simp [Function.comp, dot_product_comm])
  simp only [similaritySpec]
  rw [hlist]


/-- Witness for C3 on a fresh set against a one-observation set. -/
theorem similarity_valid_common_power_mean_witness :
    (TSSwf tssInit ∧ TSSwf tssOne) ∧
    TimeStampSetV2.similarity constKde tssInit tssOne =
      similaritySpec constKde tssInit tssOne :=
  ⟨⟨by decide, by decide⟩,
    similarity_valid_common_power_mean constKde tssInit tssOne (by decide)
      (by decide)⟩

/-- Witness for C10 on a fresh set against a one-observation set. -/
theorem similarity_symm_witness :
    (TSSwf tssOne ∧ TSSwf tssInit) ∧
    TimeStampSetV2.similarity constKde tssOne tssInit =
      TimeStampSetV2.similarity constKde tssInit tssOne :=
  ⟨⟨by decide, by decide⟩,
    similarity_symm constKde tssOne tssInit (by decide) (by decide)⟩

lemma linspace_length (a b : ℝ) (n : ℕ) : (linspace a b n).length = n := by
  unfold linspace
  rw [List.length_map, List.length_range]

/-- C4: for a positive sample count and modulus, the circular density curve
equals the plain density fit on the data folded into `[0, modulo)` and
extended by its copies shifted down and up by `modulo`, sampled at `n + 1`
evenly spaced points over `[0, modulo]` with the duplicate closing sample
dropped (so `n` points come back), and an omitted bandwidth defaults to 3%
of the domain width. -/
theorem plot_kde_modulo_circular_extension (K : KdeModel) (xs : List ℝ)
    (modulo : ℝ) (bandwidth : Option ℝ) (n : ℕ) (hn : 0 < n)
    (hm : (0 : ℝ) < modulo) :
    plot_kde_modulo K xs modulo "gaussian" bandwidth n =
      (plot_kde K
          ((xs.map (fun r => pyFmod r modulo - modulo))
            ++ xs.map (fun r => pyFmod r modulo)
            ++ xs.map (fun r => pyFmod r modulo + modulo))
          0 modulo "gaussian" bandwidth (n + 1)).map
        (fun c => (c.1.dropLast, c.2.dropLast)) ∧
    (plot_kde_modulo K xs modulo "gaussian" bandwidth n).map
        (fun c => (c.1.length, c.2.length)) = some (n, n) ∧
    (∀ (data : List ℝ) (m : ℕ),
      plot_kde K data 0 modulo "gaussian" none m =
        plot_kde K data 0 modulo "gaussian" (some ((modulo - 0) * 0.03)) m) := by
  refine ⟨?_, ?_, ?_⟩
  · simp only [plot_kde_modulo, hn, if_true, List.map_map]
    rfl
  · simp only [plot_kde_modulo, plot_kde, hn, if_true]
    have hcond : (0 : ℝ) < modulo ∧ 0 < n + 1 := ⟨hm, Nat.succ_pos n⟩
    rw [if_pos hcond]
    simp [List.length_dropLast, linspace_length]
  · intro data m
    simp [plot_kde, Option.getD]


/-- Witness for C4 at the empty data list with unit modulus. -/
theorem plot_kde_modulo_circular_extension_witness :
    ((0 < 1) ∧ ((0 : ℝ) < 1)) ∧
    (plot_kde_modulo constKde [] 1 "gaussian" none 1 =
      (plot_kde constKde
          ((([] : List ℝ).map (fun r => pyFmod r 1 - 1))
            ++ ([] : List ℝ).map (fun r => pyFmod r 1)
            ++ ([] : List ℝ).map (fun r => pyFmod r 1 + 1))
          0 1 "gaussian" none (1 + 1)).map
        (fun c => (c.1.dropLast, c.2.dropLast)) ∧
    (plot_kde_modulo constKde [] 1 "gaussian" none 1).map
        (fun c => (c.1.length, c.2.length)) = some (1, 1) ∧
    (∀ (data : List ℝ) (m : ℕ),
      plot_kde constKde data 0 1 "gaussian" none m =
        plot_kde constKde data 0 1 "gaussian" (some (((1 : ℝ) - 0) * 0.03)) m)) :=
  ⟨⟨by decide, zero_lt_one⟩,
    plot_kde_modulo_circular_extension constKde [] 1 none 1 (by decide)
      zero_lt_one⟩
